import Mathlib

/-!
Shallow embedding of the earthquake-visualizer data pipeline.

Sources embedded here:
* `src/api/earthquakes.js` — feed normalization, magnitude filter, sort,
  two-tier cache, `getEarthquakes`.
* `src/lib/cache.js` — durable TTL cache (`setCache` / `getCache`).
* `src/components/MapView.jsx` — `createClusters`, `visibleData`,
  `getSmartRenderingLimit`, `isInViewport`.

Modelling conventions:
* JS numbers are modelled as `ℚ` (exact arithmetic; NaN/Infinity corner cases
  of IEEE doubles are outside the model).
* Optional / possibly-`undefined` JS fields are `Option`s.
* `Array.prototype.sort(cmp)` is modelled as a stable insertion sort
  (`jsSortBy`): an element is placed before the first element `y` of the
  already-sorted tail with `cmp x y ≤ 0`, which keeps the original order of
  elements that compare equal, as required of JS sorts.
* `JSON`/network/IndexedDB effects are passed in explicitly: the fetch outcome
  is an oracle argument, the two cache tiers are explicit association lists,
  and `Date.now()` is a time argument (one sample per call).
-/

namespace EV

/-! ### JS `Array.prototype.sort` model: stable insertion sort -/

/-- Insert `x` before the first element `y` with `cmp x y ≤ 0`
(i.e. before the first element the comparator does not strictly order after `x`). -/
def jsInsert (cmp : α → α → ℚ) (x : α) : List α → List α
  | [] => [x]
  | y :: ys => if cmp x y ≤ 0 then x :: y :: ys else y :: jsInsert cmp x ys

/-- Stable sort with a JS-style numeric comparator: `cmp a b < 0` puts `a` first,
`cmp a b > 0` puts `b` first, `0` keeps the original relative order. -/
def jsSortBy (cmp : α → α → ℚ) : List α → List α
  | [] => []
  | x :: xs => jsInsert cmp x (jsSortBy cmp xs)

/-! ### Data model (`src/api/earthquakes.js`) -/

/-- `coords: { lat, lon }` of a normalized event.  The JS destructuring
`const [lon, lat, depth] = coords` can leave `lat`/`lon` `undefined` when the
source coordinate array is too short, hence `Option`. -/
structure Coords where
  lat : Option ℚ
  lon : Option ℚ
deriving DecidableEq, Repr

/-- A feed record on the domain where the source's destructuring succeeds:
`properties` and `geometry` are absent (`undefined`, defaulted to `{}` by
`const { id, properties = {}, geometry = {} } = feature || {}`) or objects,
and `coordinates` is absent/falsy or an array.  On this domain the absent
cases collapse into `Option` fields (`coordinates = none` covers a missing
`geometry` and a falsy `geometry.coordinates` alike).  The full raw shape —
including the `null` and non-iterable slots on which `normalizeFeature`
throws — is `RawFeature` below, normalized by `normalizeFeatureRaw`;
`flattenRaw` maps its non-throwing records onto this type. -/
structure Feature where
  id : Option String
  mag : Option ℚ
  place : Option String
  time : Option ℚ
  url : Option String
  detail : Option String
  coordinates : Option (List ℚ)
deriving DecidableEq, Repr

/-- A normalized event, the result shape of `normalizeFeature`. -/
structure ApiEvent where
  id : Option String
  magnitude : Option ℚ
  place : Option String
  time : Option ℚ
  url : Option String
  detail : Option String
  depth : Option ℚ
  coords : Coords
deriving DecidableEq, Repr

/-- `normalizeFeature` (earthquakes.js:51-67): missing `geometry.coordinates`
defaults to `[0, 0, 0]`; the array destructures as `[lon, lat, depth]`. -/
def normalizeFeature (f : Feature) : ApiEvent :=
  let coords := f.coordinates.getD [0, 0, 0]
  { id := f.id
    magnitude := f.mag
    place := f.place
    time := f.time
    url := f.url
    detail := f.detail
    depth := coords[2]?
    coords := { lat := coords[1]?, lon := coords[0]? } }

/-- `e.magnitude || 0`: an absent magnitude is compared as `0`
(and a present magnitude `0` is also `0`, so `getD 0` is exact). -/
def ApiEvent.magOr0 (e : ApiEvent) : ℚ := e.magnitude.getD 0

/-- The comparator `(a, b) => (b.magnitude || 0) - (a.magnitude || 0)`
(earthquakes.js:99): magnitude descending. -/
def magCmp (a b : ApiEvent) : ℚ := b.magOr0 - a.magOr0

/-! ### The raw feed record, with the throw paths of `normalizeFeature`

JS distinguishes `undefined` from `null`: a destructuring default (`= {}`)
replaces only `undefined`, while destructuring or member access on `null`
throws a `TypeError`, and the spread `[...v]` throws on a truthy non-iterable
`v`.  The types below keep those cases apart so that `normalizeFeature`'s
error behavior is representable. -/

/-- The `properties` object fields read by `normalizeFeature`. -/
structure RawProps where
  mag : Option ℚ
  place : Option String
  time : Option ℚ
  url : Option String
  detail : Option String
deriving DecidableEq, Repr

/-- A JS object slot: `undefined`, `null`, or an object. -/
inductive JsObj (α : Type) where
  | undef
  | null
  | obj (a : α)
deriving DecidableEq, Repr

/-- The `geometry.coordinates` slot: a falsy value (`undefined`, `null`, …,
short-circuited by `&&`), an array (spreadable — an empty array is truthy),
or a truthy non-iterable value, which the spread rejects. -/
inductive JsCoords where
  | falsy
  | array (cs : List ℚ)
  | notIterable
deriving DecidableEq, Repr

/-- The `geometry` object as read by `normalizeFeature`. -/
structure RawGeometry where
  coordinates : JsCoords
deriving DecidableEq, Repr

/-- A raw GeoJSON feature as it reaches `normalizeFeature`, before any
defaulting: `properties` and `geometry` may each be absent, `null`, or an
object. -/
structure RawFeature where
  id : Option String
  properties : JsObj RawProps
  geometry : JsObj RawGeometry
deriving DecidableEq, Repr

/-- `normalizeFeature` (earthquakes.js:51-67) on a raw record, with the throw
paths modelled: `feature || {}` replaces a falsy feature; the defaults
`properties = {}` / `geometry = {}` apply only to `undefined`, so `null`
`properties` throws at `const { mag, … } = properties` (checked first, as in
the source), `null` `geometry` throws at `geometry.coordinates`, and a truthy
non-iterable `coordinates` throws in `[...geometry.coordinates]`. -/
def normalizeFeatureRaw (feature : JsObj RawFeature) : Except String ApiEvent :=
  let f : RawFeature :=
    match feature with
    | .obj f => f
    | _ => { id := none, properties := .undef, geometry := .undef }
  match f.properties, f.geometry with
  | .null, _ =>
      .error "TypeError: Cannot destructure property of properties as it is null."
  | _, .null =>
      .error "TypeError: Cannot read properties of null (reading coordinates)"
  | props, geo =>
      match (match geo with | .obj g => g.coordinates | _ => .falsy) with
      | .notIterable => .error "TypeError: geometry.coordinates is not iterable"
      | cv =>
          let p : RawProps :=
            match props with
            | .obj p => p
            | _ => { mag := none, place := none, time := none, url := none, detail := none }
          let coords : List ℚ :=
            match cv with
            | .array cs => cs
            | _ => [0, 0, 0]
          .ok { id := f.id, magnitude := p.mag, place := p.place, time := p.time,
                url := p.url, detail := p.detail,
                depth := coords[2]?,
                coords := { lat := coords[1]?, lon := coords[0]? } }

/-- Collapse a raw record onto the pipeline's `Feature` shape (a `null` slot
collapses like an absent one; on well-formed records no slot is `null`). -/
def flattenRaw (feature : JsObj RawFeature) : Feature :=
  match feature with
  | .obj f =>
      { id := f.id
        mag := match f.properties with | .obj p => p.mag | _ => none
        place := match f.properties with | .obj p => p.place | _ => none
        time := match f.properties with | .obj p => p.time | _ => none
        url := match f.properties with | .obj p => p.url | _ => none
        detail := match f.properties with | .obj p => p.detail | _ => none
        coordinates :=
          match f.geometry with
          | .obj g => (match g.coordinates with | .array cs => some cs | _ => none)
          | _ => none }
  | _ => { id := none, mag := none, place := none, time := none, url := none,
           detail := none, coordinates := none }

/-- The raw records on which `normalizeFeatureRaw` hits no throw path:
no `null` `properties`, no `null` `geometry`, and no truthy non-iterable
`coordinates`. -/
def wellFormedRaw (feature : JsObj RawFeature) : Bool :=
  match feature with
  | .obj f =>
      (match f.properties with | .null => false | _ => true) &&
      (match f.geometry with
       | .null => false
       | .obj g => (match g.coordinates with | .notIterable => false | _ => true)
       | .undef => true)
  | _ => true

/-! ### Durable cache (`src/lib/cache.js`)

The localforage store is modelled as an association list with unique keys
(`setItem` overwrites in place, `removeItem` deletes).  `Date.now()` is an
explicit argument.  The `try`/`catch` that degrades storage failures to a miss
is environmental and not part of the pure model. -/

/-- The stored payload `{ ts, ttl, value }` of `setCache`. -/
structure CachePayload where
  ts : ℚ
  ttl : ℚ
  value : List ApiEvent
deriving DecidableEq

/-- Key-value store: lookup of the first (unique) binding of a key. -/
def storeGet (s : List (String × α)) (k : String) : Option α :=
  ((s.find? fun kv => kv.1 = k).map fun kv => kv.2)

/-- `setItem`: overwrite an existing binding in place, else append. -/
def storeSet (k : String) (v : α) : List (String × α) → List (String × α)
  | [] => [(k, v)]
  | (k', v') :: rest =>
      if k' = k then (k, v) :: rest else (k', v') :: storeSet k v rest

/-- `removeItem`. -/
def storeRemove (s : List (String × α)) (k : String) : List (String × α) :=
  s.filter fun kv => kv.1 ≠ k

/-- Durable store contents. -/
abbrev DurStore := List (String × CachePayload)

/-- `setCache(key, value, ttl)` (cache.js:10-13): stores
`{ ts: Date.now(), ttl, value }`. -/
def setCache (store : DurStore) (now : ℚ) (key : String) (value : List ApiEvent)
    (ttl : ℚ) : DurStore :=
  storeSet key { ts := now, ttl := ttl, value := value } store

/-- `getCache(key)` (cache.js:18-32): a payload whose age `Date.now() - ts`
exceeds `ttl` is removed and reported absent; otherwise its value is returned.
(`ttl || 0` agrees with `ttl` for every rational `ttl`.)  Returns the value
(or `none`) together with the store after the read. -/
def getCache (store : DurStore) (key : String) (now : ℚ) :
    Option (List ApiEvent) × DurStore :=
  match storeGet store key with
  | none => (none, store)
  | some p => if now - p.ts > p.ttl then (none, storeRemove store key) else (some p.value, store)

/-! ### `getEarthquakes` (`src/api/earthquakes.js`) -/

/-- An in-memory cache entry `{ ts, features }` (earthquakes.js:13). -/
structure MemEntry where
  ts : ℚ
  features : List ApiEvent
deriving DecidableEq

/-- The module-level `Map` `_cache`; JS `Map.set` keeps insertion order, which
`storeSet` mirrors. -/
abbrev MemStore := List (String × MemEntry)

/-- `CACHE_TTL = 5 * 60 * 1000` (earthquakes.js:14). -/
def CACHE_TTL : ℚ := 5 * 60 * 1000

/-- `buildFeedUrl` with the `RANGE_TO_FEED` table and its `'24h'` fallback. -/
def buildFeedUrl (range : String) : String :=
  let feed :=
    if range = "24h" then "all_day"
    else if range = "7d" then "all_week"
    else if range = "30d" then "all_month"
    else "all_day"
  "https://earthquake.usgs.gov/earthquakes/feed/v1.0/summary/" ++ feed ++ ".geojson"

/-- The cache key `` `${url}|min:${minMagnitude}` `` (earthquakes.js:71). -/
def cacheKey (range : String) (minMagnitude : ℚ) : String :=
  buildFeedUrl range ++ "|min:" ++ toString minMagnitude

/-- A thrown JS error as observed by the `catch` block: its `name`, its
`message`, and its `String(error)` rendering (used when `message` is falsy). -/
structure JsError where
  name : String
  message : String
  str : String
deriving DecidableEq

/-- `error.message || String(error)`. -/
def errText (e : JsError) : String := if e.message = "" then e.str else e.message

/-- Outcome of `fetchJson`: either the parsed JSON's `features` field
(`none` models a missing `features`, handled by `(json && json.features) || []`),
or a thrown error (abort, network failure, or the `HTTP …` error). -/
inductive FetchOutcome where
  | success (features : Option (List Feature))
  | failure (e : JsError)
deriving DecidableEq

/-- `typeof maxResults === 'number' ? list.slice(0, maxResults) : list`. -/
def cap (maxResults : Option ℕ) (l : List ApiEvent) : List ApiEvent :=
  match maxResults with
  | some n => l.take n
  | none => l

/-- The `{ ok, count, features, fromCache?, error? }` result object. -/
structure GetResult where
  ok : Bool
  count : ℕ
  features : List ApiEvent
  fromCache : Bool
  error : Option String
deriving DecidableEq

/-- A successful `{ ok: true, count: capped.length, features: capped, … }`. -/
def okResult (fromCache : Bool) (capped : List ApiEvent) : GetResult :=
  { ok := true, count := capped.length, features := capped
    fromCache := fromCache, error := none }

/-- The normalize → filter-by-floor → sort-descending pipeline of
earthquakes.js:95-99.  (`minMagnitude || 0` agrees with `minMagnitude` on every
rational, since `0 || 0` is `0`.) -/
def normalizePipeline (features : List Feature) (minMagnitude : ℚ) : List ApiEvent :=
  jsSortBy magCmp
    ((features.map normalizeFeature).filter fun f => decide (minMagnitude ≤ f.magOr0))

/-- `find the oldest entry` loop (earthquakes.js:108-114): strict `<` keeps the
first entry among ties, starting from `oldestTs = Infinity`. -/
def findOldest (m : MemStore) : Option (String × ℚ) :=
  m.foldl
    (fun acc kv =>
      match acc with
      | none => some (kv.1, kv.2.ts)
      | some (k, t) => if kv.2.ts < t then some (kv.1, kv.2.ts) else some (k, t))
    none

/-- `if (_cache.size > 50) { drop oldest }` (earthquakes.js:107-115). -/
def evictOldest (m : MemStore) : MemStore :=
  if m.length > 50 then
    match findOldest m with
    | some (k, _) => storeRemove m k
    | none => m
  else m

/-- The network branch (earthquakes.js:92-125): fetch, normalize/filter/sort,
store in both tiers, evict, cap — or classify the thrown error, mapping
`AbortError` to the distinguished `'aborted'` outcome. -/
def fetchStage (key : String) (minMagnitude : ℚ) (maxResults : Option ℕ) (now : ℚ)
    (mem : MemStore) (dur : DurStore) (outcome : FetchOutcome) :
    GetResult × MemStore × DurStore :=
  match outcome with
  | .failure e =>
      ({ ok := false, count := 0, features := [], fromCache := false
         error := some (if e.name = "AbortError" then "aborted" else errText e) },
       mem, dur)
  | .success jsonFeatures =>
      let features := jsonFeatures.getD []
      let normalized := normalizePipeline features minMagnitude
      let mem1 := storeSet key { ts := now, features := normalized } mem
      let dur1 := setCache dur now key normalized CACHE_TTL
      let mem2 := evictOldest mem1
      (okResult false (cap maxResults normalized), mem2, dur1)

/-- The durable-tier branch (earthquakes.js:80-91): a hit warms the in-memory
map with a fresh timestamp `Date.now()` and returns the capped payload. -/
def durStage (key : String) (minMagnitude : ℚ) (maxResults : Option ℕ) (now : ℚ)
    (mem : MemStore) (dur : DurStore) (outcome : FetchOutcome) :
    GetResult × MemStore × DurStore :=
  match getCache dur key now with
  | (some value, dur') =>
      (okResult true (cap maxResults value),
       storeSet key { ts := now, features := value } mem, dur')
  | (none, dur') => fetchStage key minMagnitude maxResults now mem dur' outcome

/-- `getEarthquakes` (earthquakes.js:69-126).  The in-memory tier hits iff the
entry's age is strictly below `CACHE_TTL`; an expired or missing entry falls
through to the durable tier and then the network.  `now` models the
`Date.now()` samples of the call, `outcome` the `fetchJson` result. -/
def getEarthquakes (range : String) (minMagnitude : ℚ) (maxResults : Option ℕ)
    (now : ℚ) (mem : MemStore) (dur : DurStore) (outcome : FetchOutcome) :
    GetResult × MemStore × DurStore :=
  let key := cacheKey range minMagnitude
  match storeGet mem key with
  | some c =>
      if now - c.ts < CACHE_TTL then (okResult true (cap maxResults c.features), mem, dur)
      else durStage key minMagnitude maxResults now mem dur outcome
  | none => durStage key minMagnitude maxResults now mem dur outcome

/-! ### Clustering and visible-data selection (`src/components/MapView.jsx`)

`MapView` consumes events whose `coords` are present (the normalization
invariant); only `coords.lat/lon`, `magnitude` and `time` are read by the
clustering and ranking code, so the event type here carries exactly those. -/

/-- Present coordinates, as used by the map code. -/
structure MapCoords where
  lat : ℚ
  lon : ℚ
deriving DecidableEq, Repr

/-- An event as read by `MapView`'s clustering/ranking code. -/
structure MapEvent where
  coords : MapCoords
  magnitude : Option ℚ
  time : Option ℚ
deriving DecidableEq, Repr

/-- `eq.magnitude || 0`. -/
def MapEvent.magOr0 (e : MapEvent) : ℚ := e.magnitude.getD 0

/-- `eq.time || 0`. -/
def MapEvent.timeOr0 (e : MapEvent) : ℚ := e.time.getD 0

/-- `const clusterDistance = zoom > 10 ? 40 : zoom > 7 ? 60 : zoom > 4 ? 80 : 120`
(MapView.jsx:159). -/
def clusterDistance (zoom : ℤ) : ℚ :=
  if zoom > 10 then 40 else if zoom > 7 then 60 else if zoom > 4 then 80 else 120

/-- `Math.sqrt(dlat² + dlon²) * 111000 < d` (MapView.jsx:177-182), stated in the
equivalent squared form `(dlat² + dlon²) * 111000² < d²`, which is exact over
the reals for the nonnegative `d` values produced by `clusterDistance`. -/
def nearB (p q : MapEvent) (d : ℚ) : Bool :=
  decide (((p.coords.lat - q.coords.lat) ^ 2 + (p.coords.lon - q.coords.lon) ^ 2)
            * 111000 ^ 2 < d ^ 2)

/-- A cluster `{ lat, lng, points, maxMagnitude }` (MapView.jsx:166-171). -/
structure Cluster where
  lat : ℚ
  lng : ℚ
  points : List MapEvent
  maxMagnitude : ℚ
deriving DecidableEq, Repr

/-- Centroid weight `Math.max(1, p.magnitude || 1)` (MapView.jsx:196):
an absent or zero magnitude is falsy and becomes `1` before the `max`. -/
def clusterWeight (p : MapEvent) : ℚ :=
  max 1 (match p.magnitude with
         | none => 1
         | some m => if m = 0 then 1 else m)

/-- Build the cluster for seed `p` and the claimed `extra` members:
`maxMagnitude` folds `Math.max` over the members' `magnitude || 0`, and a
multi-member cluster recomputes its center as the magnitude-weighted centroid
(MapView.jsx:189-204). -/
def mkCluster (p : MapEvent) (extra : List MapEvent) : Cluster :=
  let pts := p :: extra
  let maxMag := extra.foldl (fun acc q => max acc q.magOr0) p.magOr0
  if pts.length > 1 then
    let totalWeight := (pts.map clusterWeight).sum
    let wlat := (pts.map fun q => q.coords.lat * clusterWeight q).sum
    let wlng := (pts.map fun q => q.coords.lon * clusterWeight q).sum
    { lat := wlat / totalWeight, lng := wlng / totalWeight
      points := pts, maxMagnitude := maxMag }
  else
    { lat := p.coords.lat, lng := p.coords.lon, points := pts, maxMagnitude := maxMag }

/-- The inner `points.forEach((otherPoint, j) => …)` scan (MapView.jsx:174-187):
skip `j === i` and already-processed indices, claim every point within the
distance threshold, marking it processed.  Returns the claimed points (in scan
order) and the grown processed set. -/
def innerScan (pt : MapEvent) (d : ℚ) (i : ℕ) :
    List (ℕ × MapEvent) → List ℕ → List MapEvent × List ℕ
  | [], pr => ([], pr)
  | (j, q) :: rest, pr =>
      if j = i ∨ j ∈ pr then innerScan pt d i rest pr
      else if nearB pt q d then
        let step := innerScan pt d i rest (j :: pr)
        (q :: step.1, step.2)
      else innerScan pt d i rest pr

/-- The outer `points.forEach((point, i) => …)` loop (MapView.jsx:163-208):
each unprocessed index seeds a cluster, claims nearby points via `innerScan`,
and is itself marked processed. -/
def clusterLoop (all : List (ℕ × MapEvent)) (d : ℚ) :
    List (ℕ × MapEvent) → List ℕ → List Cluster
  | [], _ => []
  | (i, p) :: rest, pr =>
      if i ∈ pr then clusterLoop all d rest pr
      else
        let step := innerScan p d i all pr
        mkCluster p step.1 :: clusterLoop all d rest (i :: step.2)

/-- `createClusters(points, zoom)` (MapView.jsx:158-211). -/
def createClusters (points : List MapEvent) (zoom : ℤ) : List Cluster :=
  clusterLoop points.enum (clusterDistance zoom) points.enum []

/-- Viewport bounds `{ north, south, east, west, zoom }`. -/
structure Bounds where
  north : ℚ
  south : ℚ
  east : ℚ
  west : ℚ
  zoom : ℤ
deriving DecidableEq, Repr

/-- `isInViewport` (MapView.jsx:367-372); `coords` is always present here. -/
def isInViewport (e : MapEvent) (bounds : Option Bounds) : Bool :=
  match bounds with
  | none => true
  | some b =>
      decide (b.south ≤ e.coords.lat) && decide (e.coords.lat ≤ b.north) &&
      decide (b.west ≤ e.coords.lon) && decide (e.coords.lon ≤ b.east)

/-- `getSmartRenderingLimit(zoom, totalCount, performance)` (MapView.jsx:375-396). -/
def getSmartRenderingLimit (zoom : ℤ) (totalCount : ℕ) (performanceMode : String) : ℕ :=
  if performanceMode = "high" then
    if zoom ≥ 10 then min 2000 totalCount
    else if zoom ≥ 8 then min 1500 totalCount
    else if zoom ≥ 6 then min 1000 totalCount
    else if zoom ≥ 4 then min 500 totalCount
    else min 200 totalCount
  else if performanceMode = "balanced" then
    if zoom ≥ 8 then min 1000 totalCount
    else if zoom ≥ 6 then min 500 totalCount
    else if zoom ≥ 4 then min 250 totalCount
    else min 100 totalCount
  else
    if zoom ≥ 8 then min 500 totalCount
    else if zoom ≥ 6 then min 250 totalCount
    else if zoom ≥ 4 then min 150 totalCount
    else min 75 totalCount

/-- The priority comparator of `visibleData` (MapView.jsx:502-511):
magnitude descending unless the magnitudes differ by at most `0.5`, in which
case recency (larger `time`) decides. -/
def priorityCmp (a b : MapEvent) : ℚ :=
  if |a.magOr0 - b.magOr0| > 1/2 then b.magOr0 - a.magOr0 else b.timeOr0 - a.timeOr0

/-- `visibleData` (MapView.jsx:491-539): viewport filter (only when geographic
filtering is off and bounds exist), priority sort, truncation to the smart
rendering limit (zoom defaults to 2 without bounds). -/
def visibleData (allData : List MapEvent) (viewportBounds : Option Bounds)
    (geographicFiltering : Bool) (performanceMode : String) : List MapEvent :=
  if allData.isEmpty then []
  else
    let viewportFiltered :=
      match geographicFiltering, viewportBounds with
      | false, some b => allData.filter fun e => isInViewport e (some b)
      | _, _ => allData
    let sorted := jsSortBy priorityCmp viewportFiltered
    let zoom := (viewportBounds.map Bounds.zoom).getD 2
    sorted.take (getSmartRenderingLimit zoom sorted.length performanceMode)

/-! ### Derived predicates used in the statements -/

/-- The in-memory tier does not hit: the key is unbound or the entry's age has
reached `CACHE_TTL` (the hit test of earthquakes.js:75 is strict `<`). -/
def memMiss (mem : MemStore) (key : String) (now : ℚ) : Prop :=
  ∀ c, storeGet mem key = some c → CACHE_TTL ≤ now - c.ts

/-- The ordering the spec attributes to `visibleData`'s comparator, as a
relation between an earlier and a later element of the output: magnitude
strictly descending when the magnitudes differ by more than `0.5`, recency
(time non-increasing) otherwise. -/
def claimedOrder (x y : MapEvent) : Prop :=
  (|x.magOr0 - y.magOr0| > 1/2 → y.magOr0 < x.magOr0) ∧
  (|x.magOr0 - y.magOr0| ≤ 1/2 → y.timeOr0 ≤ x.timeOr0)

/-- The claim test of `innerScan`, as a predicate on an indexed point:
not the seed index, not yet processed, and within the distance threshold. -/
def claimP (pt : MapEvent) (d : ℚ) (i : ℕ) (pr : List ℕ) (jq : ℕ × MapEvent) : Bool :=
  !decide (jq.1 = i ∨ jq.1 ∈ pr) && nearB pt jq.2 d

/-! ### Concrete demonstration data (for scenario conjuncts and witnesses) -/

/-- A feature with magnitude 6.2 (scenario of spec §8). -/
def f62 : Feature :=
  { id := some "a", mag := some 6.2, place := some "A", time := some 100
    url := none, detail := none, coordinates := some [30, 40, 10] }

/-- A feature with magnitude 4.0. -/
def f40 : Feature :=
  { id := some "b", mag := some 4, place := some "B", time := some 200
    url := none, detail := none, coordinates := some [31, 41, 11] }

/-- A feature with magnitude 1.5. -/
def f15 : Feature :=
  { id := some "c", mag := some 1.5, place := some "C", time := some 300
    url := none, detail := none, coordinates := some [32, 42, 12] }

/-- A feature whose source record has no geometry. -/
def noGeoFeature : Feature :=
  { id := some "nogeo", mag := none, place := none, time := none
    url := none, detail := none, coordinates := none }

/-- Map event at (10°, 20°). -/
def evE1 : MapEvent := { coords := { lat := 10, lon := 20 }, magnitude := none, time := none }

/-- Map event 0.0005° away from `evE1` in both lat and lon. -/
def evE2 : MapEvent :=
  { coords := { lat := 10.0005, lon := 20.0005 }, magnitude := none, time := none }

/-- Magnitude 4.0, newest. -/
def evA : MapEvent := { coords := { lat := 0, lon := 0 }, magnitude := some 4, time := some 3 }

/-- Magnitude 4.4, middle age. -/
def evB : MapEvent := { coords := { lat := 0, lon := 0 }, magnitude := some 4.4, time := some 2 }

/-- Magnitude 4.8, oldest. -/
def evC : MapEvent := { coords := { lat := 0, lon := 0 }, magnitude := some 4.8, time := some 1 }

/-- The cache key `getEarthquakes` derives for range `"24h"`, floor `0`. -/
def demoKey : String := cacheKey "24h" 0

/-! ### Helper lemmas -/

/-- Unfold `|q|` into an `if`, so that concrete rational absolute values
reduce by `norm_num`. -/
theorem rat_abs_ite (q : ℚ) : |q| = if q < 0 then -q else q := by
  by_cases h : q < 0
  · simp [h, abs_of_neg h]
  · simp [h, abs_of_nonneg (le_of_not_lt h)]

theorem jsInsert_perm (cmp : α → α → ℚ) (x : α) (l : List α) :
    List.Perm (jsInsert cmp x l) (x :: l) := by
  induction l with
  | nil => simp [jsInsert]
  | cons y ys ih =>
    by_cases h : cmp x y ≤ 0
    · simp [jsInsert, h]
    · simp only [jsInsert, h, if_neg, ite_false]
      exact ((ih.cons y).trans (List.Perm.swap x y ys))

theorem jsSortBy_perm (cmp : α → α → ℚ) (l : List α) :
    List.Perm (jsSortBy cmp l) l := by
  induction l with
  | nil => simp [jsSortBy]
  | cons x xs ih => exact (jsInsert_perm cmp x (jsSortBy cmp xs)).trans (ih.cons x)

theorem mem_jsSortBy (cmp : α → α → ℚ) (l : List α) (x : α) :
    x ∈ jsSortBy cmp l ↔ x ∈ l :=
  (jsSortBy_perm cmp l).mem_iff

/-- With a comparator that is total (in the sense that at least one direction is
`≤ 0`), insertion keeps the "every consecutive pair satisfies the comparator"
property.  No transitivity is assumed. -/
theorem jsInsert_chain' (cmp : α → α → ℚ)
    (htot : ∀ a b, cmp a b ≤ 0 ∨ cmp b a ≤ 0) (x : α) (l : List α)
    (hl : List.Chain' (fun a b => cmp a b ≤ 0) l) :
    List.Chain' (fun a b => cmp a b ≤ 0) (jsInsert cmp x l) := by
  induction l with
  | nil => simp [jsInsert]
  | cons y ys ih =>
    by_cases h : cmp x y ≤ 0
    · simpa [jsInsert, h] using hl
    · have hyx : cmp y x ≤ 0 := (htot x y).resolve_left h
      have hys : List.Chain' (fun a b => cmp a b ≤ 0) ys := hl.tail
      have hrec := ih hys
      simp only [jsInsert, h, ite_false]
      rw [List.chain'_cons']
      refine ⟨?_, hrec⟩
      intro z hz
      cases ys with
      | nil =>
        simp [jsInsert] at hz
        subst hz; exact hyx
      | cons w ws =>
        by_cases hxw : cmp x w ≤ 0
        · simp only [jsInsert, hxw, ite_true, List.head?_cons, Option.mem_def,
            Option.some.injEq] at hz
          subst hz; exact hyx
        · simp only [jsInsert, hxw, ite_false, List.head?_cons, Option.mem_def,
            Option.some.injEq] at hz
          subst hz
          exact (List.chain'_cons.mp hl).1

theorem jsSortBy_chain' (cmp : α → α → ℚ)
    (htot : ∀ a b, cmp a b ≤ 0 ∨ cmp b a ≤ 0) (l : List α) :
    List.Chain' (fun a b => cmp a b ≤ 0) (jsSortBy cmp l) := by
  induction l with
  | nil => simp [jsSortBy]
  | cons x xs ih => exact jsInsert_chain' cmp htot x _ ih

/-- With totality and transitivity the sorted list is pairwise ordered. -/
theorem jsSortBy_pairwise (cmp : α → α → ℚ)
    (htot : ∀ a b, cmp a b ≤ 0 ∨ cmp b a ≤ 0)
    (htrans : ∀ a b c, cmp a b ≤ 0 → cmp b c ≤ 0 → cmp a c ≤ 0) (l : List α) :
    List.Pairwise (fun a b => cmp a b ≤ 0) (jsSortBy cmp l) := by
  have hch := jsSortBy_chain' cmp htot l
  haveI : IsTrans α (fun a b => cmp a b ≤ 0) := ⟨fun a b c => htrans a b c⟩
  exact List.chain'_iff_pairwise.mp hch

theorem storeGet_storeSet_self (k : String) (v : α) (s : List (String × α)) :
    storeGet (storeSet k v s) k = some v := by
  induction s with
  | nil => simp [storeGet, storeSet, List.find?]
  | cons kv rest ih =>
    obtain ⟨k', v'⟩ := kv
    by_cases h : k' = k
    · simp [storeSet, h, storeGet, List.find?]
    · simpa [storeSet, h, storeGet, List.find?] using ih

theorem storeGet_storeRemove_self (s : List (String × α)) (k : String) :
    storeGet (storeRemove s k) k = none := by
  unfold storeGet storeRemove
  rw [List.find?_eq_none.mpr]
  · rfl
  · intro kv hkv
    have h := List.of_mem_filter hkv
    simp only [ne_eq, decide_not, Bool.not_eq_true', decide_eq_false_iff_not] at h
    simpa using h

theorem getCache_of_miss (store : DurStore) (key : String) (now : ℚ)
    (h : storeGet store key = none) : getCache store key now = (none, store) := by
  simp [getCache, h]

/-- `fetchStage` either succeeds with no error, or reports the classified
thrown error. -/
theorem fetchStage_classify (key : String) (minMag : ℚ) (maxR : Option ℕ)
    (now : ℚ) (mem : MemStore) (dur : DurStore) (outcome : FetchOutcome) :
    ((fetchStage key minMag maxR now mem dur outcome).1.ok = true ∧
     (fetchStage key minMag maxR now mem dur outcome).1.error = none) ∨
    ((fetchStage key minMag maxR now mem dur outcome).1.ok = false ∧
     ∃ e, outcome = FetchOutcome.failure e ∧
       (fetchStage key minMag maxR now mem dur outcome).1.error
         = some (if e.name = "AbortError" then "aborted" else errText e)) := by
  cases outcome with
  | success js => exact Or.inl ⟨rfl, rfl⟩
  | failure e => exact Or.inr ⟨rfl, e, rfl, rfl⟩

/-- `durStage` either succeeds with no error, or reports the classified
thrown error. -/
theorem durStage_classify (key : String) (minMag : ℚ) (maxR : Option ℕ)
    (now : ℚ) (mem : MemStore) (dur : DurStore) (outcome : FetchOutcome) :
    ((durStage key minMag maxR now mem dur outcome).1.ok = true ∧
     (durStage key minMag maxR now mem dur outcome).1.error = none) ∨
    ((durStage key minMag maxR now mem dur outcome).1.ok = false ∧
     ∃ e, outcome = FetchOutcome.failure e ∧
       (durStage key minMag maxR now mem dur outcome).1.error
         = some (if e.name = "AbortError" then "aborted" else errText e)) := by
  unfold durStage
  rcases h : getCache dur key now with ⟨v, dur'⟩
  cases v with
  | none =>
      simp only [h]
      exact fetchStage_classify key minMag maxR now mem dur' outcome
  | some value => simp only [h]; exact Or.inl ⟨rfl, rfl⟩

/-- The magnitude comparator is total. -/
theorem magCmp_total (a b : ApiEvent) : magCmp a b ≤ 0 ∨ magCmp b a ≤ 0 := by
  unfold magCmp
  rcases le_total a.magOr0 b.magOr0 with h | h
  · right; linarith
  · left; linarith

/-- The magnitude comparator is transitive. -/
theorem magCmp_trans (a b c : ApiEvent) (h1 : magCmp a b ≤ 0) (h2 : magCmp b c ≤ 0) :
    magCmp a c ≤ 0 := by
  unfold magCmp at h1 h2 ⊢
  linarith

/-- The pipeline output is pairwise sorted by magnitude descending. -/
theorem normalizePipeline_sorted (feats : List Feature) (minMag : ℚ) :
    List.Pairwise (fun a b => b.magOr0 ≤ a.magOr0) (normalizePipeline feats minMag) := by
  have h := jsSortBy_pairwise magCmp magCmp_total magCmp_trans
    ((feats.map normalizeFeature).filter fun f => decide (minMag ≤ f.magOr0))
  refine h.imp ?_
  intro a b hab
  unfold magCmp at hab
  linarith

/-- On a double cache miss, a successful fetch returns the capped pipeline. -/
theorem getEarthquakes_fetch_path (range : String) (minMag : ℚ) (maxR : Option ℕ)
    (now : ℚ) (mem : MemStore) (dur : DurStore) (feats : List Feature)
    (hmem : storeGet mem (cacheKey range minMag) = none)
    (hdur : storeGet dur (cacheKey range minMag) = none) :
    (getEarthquakes range minMag maxR now mem dur
        (FetchOutcome.success (some feats))).1
      = okResult false (cap maxR (normalizePipeline feats minMag)) := by
  unfold getEarthquakes
  simp only [hmem]
  unfold durStage
  rw [getCache_of_miss dur _ now hdur]
  rfl

/-! ### Claim theorems -/

/-- C1: on a fetch (double cache miss), `getEarthquakes` sorts the whole
normalized-and-filtered set by magnitude descending before slicing to
`maxResults = K`: for any `K` at most the set's size, the returned list is the
length-`K` prefix of the full sorted set, that prefix together with the
remainder is a permutation of the whole filtered set, and every returned event
has magnitude (absent compared as 0) at least that of every event left out. -/
theorem getEarthquakes_take_topK (range : String) (minMag : ℚ) (K : ℕ)
    (now : ℚ) (mem : MemStore) (dur : DurStore) (feats : List Feature)
    (hmem : storeGet mem (cacheKey range minMag) = none)
    (hdur : storeGet dur (cacheKey range minMag) = none)
    (_hK : K ≤ (normalizePipeline feats minMag).length) :
    (getEarthquakes range minMag (some K) now mem dur
        (FetchOutcome.success (some feats))).1.features
      = (normalizePipeline feats minMag).take K ∧
    List.Perm
      ((normalizePipeline feats minMag).take K ++ (normalizePipeline feats minMag).drop K)
      ((feats.map normalizeFeature).filter fun f => decide (minMag ≤ f.magOr0)) ∧
    ∀ x ∈ (normalizePipeline feats minMag).take K,
      ∀ y ∈ (normalizePipeline feats minMag).drop K, y.magOr0 ≤ x.magOr0 := by
  refine ⟨?_, ?_, ?_⟩
  · rw [getEarthquakes_fetch_path range minMag (some K) now mem dur feats hmem hdur]
    rfl
  · rw [List.take_append_drop]
    exact jsSortBy_perm magCmp _
  · have hp := normalizePipeline_sorted feats minMag
    rw [← List.take_append_drop K (normalizePipeline feats minMag)] at hp
    exact fun x hx y hy => (List.pairwise_append.mp hp).2.2 x hx y hy

/-- C1 witness: two features, cap 1 — the returned singleton is the prefix of
the sorted set. -/
theorem getEarthquakes_take_topK_witness :
    storeGet ([] : MemStore) (cacheKey "24h" 0) = none ∧
    1 ≤ (normalizePipeline [f62, f40] 0).length ∧
    (getEarthquakes "24h" 0 (some 1) 0 [] []
        (FetchOutcome.success (some [f62, f40]))).1.features
      = (normalizePipeline [f62, f40] 0).take 1 := by
  have hlen : (normalizePipeline [f62, f40] 0).length = 2 := by
    norm_num [normalizePipeline, jsSortBy, jsInsert, magCmp, ApiEvent.magOr0,
      normalizeFeature, f62, f40]
  exact ⟨rfl, by omega,
    (getEarthquakes_take_topK "24h" 0 1 0 [] [] [f62, f40] rfl rfl (by omega)).1⟩

/-- C7: the normalized set contains exactly the events whose magnitude (absent
compared as 0) reaches the floor: every pipeline member passes the floor, every
feature passing the floor is in the pipeline, and (for the program's
nonnegative floors) an absent-magnitude event is included iff the floor is 0.
Scenario: magnitudes [6.2, 4.0, 1.5] at floor 4.0 yield exactly the two events
6.2 and 4.0, sorted magnitude-descending. -/
theorem magnitudeFloor_filter (minMag : ℚ) (feats : List Feature) (f : Feature)
    (hfloor : 0 ≤ minMag) :
    (∀ x ∈ normalizePipeline feats minMag, minMag ≤ x.magOr0) ∧
    (f ∈ feats → minMag ≤ (normalizeFeature f).magOr0 →
      normalizeFeature f ∈ normalizePipeline feats minMag) ∧
    (f ∈ feats → f.mag = none →
      (normalizeFeature f ∈ normalizePipeline feats minMag ↔ minMag = 0)) ∧
    (getEarthquakes "24h" 4 (some 500) 0 [] []
        (FetchOutcome.success (some [f62, f40, f15]))).1.features
      = [normalizeFeature f62, normalizeFeature f40] := by
  refine ⟨?_, ?_, ?_, ?_⟩
  · intro x hx
    have hx2 := (mem_jsSortBy magCmp _ x).mp hx
    have := (List.mem_filter.mp hx2).2
    simpa using this
  · intro hf hle
    refine (mem_jsSortBy magCmp _ _).mpr (List.mem_filter.mpr ?_)
    exact ⟨List.mem_map_of_mem normalizeFeature hf, by simpa using hle⟩
  · intro hf hnone
    have h0 : (normalizeFeature f).magOr0 = 0 := by
      simp [normalizeFeature, ApiEvent.magOr0, hnone]
    constructor
    · intro hmem
      have hx2 := (mem_jsSortBy magCmp _ _).mp hmem
      have hpass := (List.mem_filter.mp hx2).2
      rw [h0] at hpass
      simp only [decide_eq_true_eq] at hpass
      exact le_antisymm hpass hfloor
    · intro h
      refine (mem_jsSortBy magCmp _ _).mpr (List.mem_filter.mpr ?_)
      refine ⟨List.mem_map_of_mem normalizeFeature hf, ?_⟩
      rw [h0, h]
      simp
  · simp only [getEarthquakes, durStage, fetchStage, getCache, storeGet, List.find?,
      Option.map_none', okResult, cap, normalizePipeline]
    norm_num [jsSortBy, jsInsert, magCmp, ApiEvent.magOr0, normalizeFeature,
      f62, f40, f15]

/-- C7 witness: the scenario instance at floor 4. -/
theorem magnitudeFloor_filter_witness :
    (0 : ℚ) ≤ 4 ∧
    (getEarthquakes "24h" 4 (some 500) 0 [] []
        (FetchOutcome.success (some [f62, f40, f15]))).1.features
      = [normalizeFeature f62, normalizeFeature f40] :=
  ⟨by norm_num, (magnitudeFloor_filter 4 [] noGeoFeature (by norm_num)).2.2.2⟩

/-- C2: `setCache(key, events, ttl)` followed by `getCache(key)` strictly
before `ttl` milliseconds have elapsed returns the stored event sequence and
leaves the store unchanged; a `getCache(key)` strictly after `ttl` milliseconds
returns absent and removes the entry from the store. -/
theorem setCache_getCache_roundtrip (store : DurStore) (key : String)
    (events : List ApiEvent) (ttl t0 t1 : ℚ) :
    (t1 - t0 < ttl →
      getCache (setCache store t0 key events ttl) key t1
        = (some events, setCache store t0 key events ttl)) ∧
    (t1 - t0 > ttl →
      (getCache (setCache store t0 key events ttl) key t1).1 = none ∧
      storeGet (getCache (setCache store t0 key events ttl) key t1).2 key = none) := by
  have hget : storeGet (setCache store t0 key events ttl) key
      = some { ts := t0, ttl := ttl, value := events } :=
    storeGet_storeSet_self key _ store
  constructor
  · intro h
    have hnot : ¬ (t1 - t0 > ttl) := not_lt.mpr h.le
    simp [getCache, hget, hnot]
  · intro h
    constructor
    · simp [getCache, hget, h]
    · simp [getCache, hget, h, storeGet_storeRemove_self]

/-- C2 witness: the spec's scenario — store with `ttl = 300000` at time 0; the
read at 4 minutes returns the payload, the read at 6 minutes returns absent
and purges the key. -/
theorem setCache_getCache_roundtrip_witness :
    ((240000 : ℚ) - 0 < 300000 ∧
      getCache (setCache [] 0 "feedA|min:0" [normalizeFeature f62] 300000)
          "feedA|min:0" 240000
        = (some [normalizeFeature f62],
           setCache [] 0 "feedA|min:0" [normalizeFeature f62] 300000)) ∧
    ((360000 : ℚ) - 0 > 300000 ∧
      (getCache (setCache [] 0 "feedA|min:0" [normalizeFeature f62] 300000)
          "feedA|min:0" 360000).1 = none) :=
  ⟨⟨by norm_num,
    (setCache_getCache_roundtrip [] "feedA|min:0" [normalizeFeature f62] 300000 0 240000).1
      (by norm_num)⟩,
   ⟨by norm_num,
    ((setCache_getCache_roundtrip [] "feedA|min:0" [normalizeFeature f62] 300000 0 360000).2
      (by norm_num)).1⟩⟩

/-- C3 counterexample: normalization does **not** terminate without throwing
for every raw feed record — a record with `"properties": null` throws at the
destructuring `const { mag, … } = properties`, a record with
`"geometry": null` (which GeoJSON permits) throws at `geometry.coordinates`,
and a record whose `coordinates` is a truthy non-iterable throws in the
spread `[...geometry.coordinates]`; the destructuring defaults replace only
`undefined`, never `null`. -/
theorem normalizeFeatureRaw_throws_cex :
    normalizeFeatureRaw (JsObj.obj
        { id := some "pnull", properties := JsObj.null, geometry := JsObj.undef })
      = Except.error "TypeError: Cannot destructure property of properties as it is null." ∧
    normalizeFeatureRaw (JsObj.obj
        { id := some "gnull", properties := JsObj.undef, geometry := JsObj.null })
      = Except.error "TypeError: Cannot read properties of null (reading coordinates)" ∧
    normalizeFeatureRaw (JsObj.obj
        { id := some "badcoords", properties := JsObj.undef,
          geometry := JsObj.obj { coordinates := JsCoords.notIterable } })
      = Except.error "TypeError: geometry.coordinates is not iterable" :=
  ⟨rfl, rfl, rfl⟩

/-- C3 (amended): `normalizeFeature` throws only on records with a `null`
`properties`, a `null` `geometry`, or a truthy non-iterable `coordinates`
(the destructuring defaults apply only to `undefined`).  On every other raw
record it terminates without throwing and produces the flattened record's
normalization; on that domain no record is dropped (mapping preserves length),
`coords` is always present and defaults to `{lat: 0, lon: 0}` (with depth 0)
when the record carries no geometry, and a missing magnitude yields the
absent-magnitude field rather than an error. -/
theorem normalizeFeature_no_throw (feature : JsObj RawFeature)
    (l : List Feature) (f : Feature) (hwf : wellFormedRaw feature = true) :
    normalizeFeatureRaw feature = Except.ok (normalizeFeature (flattenRaw feature)) ∧
    (l.map normalizeFeature).length = l.length ∧
    (f.coordinates = none →
      (normalizeFeature f).coords = { lat := some 0, lon := some 0 } ∧
      (normalizeFeature f).depth = some 0) ∧
    (f.mag = none → (normalizeFeature f).magnitude = none) := by
  refine ⟨?_, by simp, fun h => ?_, fun h => ?_⟩
  · cases feature with
    | undef => rfl
    | null => rfl
    | obj f' =>
      cases hprops : f'.properties with
      | null => simp [wellFormedRaw, hprops] at hwf
      | undef =>
        cases hgeo : f'.geometry with
        | null => simp [wellFormedRaw, hgeo] at hwf
        | undef =>
          simp [normalizeFeatureRaw, flattenRaw, normalizeFeature, hprops, hgeo]
        | obj g =>
          cases hcv : g.coordinates with
          | notIterable => simp [wellFormedRaw, hgeo, hcv] at hwf
          | falsy =>
            simp [normalizeFeatureRaw, flattenRaw, normalizeFeature, hprops, hgeo, hcv]
          | array cs =>
            simp [normalizeFeatureRaw, flattenRaw, normalizeFeature, hprops, hgeo, hcv]
      | obj p =>
        cases hgeo : f'.geometry with
        | null => simp [wellFormedRaw, hgeo] at hwf
        | undef =>
          simp [normalizeFeatureRaw, flattenRaw, normalizeFeature, hprops, hgeo]
        | obj g =>
          cases hcv : g.coordinates with
          | notIterable => simp [wellFormedRaw, hgeo, hcv] at hwf
          | falsy =>
            simp [normalizeFeatureRaw, flattenRaw, normalizeFeature, hprops, hgeo, hcv]
          | array cs =>
            simp [normalizeFeatureRaw, flattenRaw, normalizeFeature, hprops, hgeo, hcv]
  · constructor <;> simp [normalizeFeature, h]
  · simp [normalizeFeature, h]

/-- C3 witness: a record without geometry is well-formed, normalizes without
throwing, and gets origin coordinates and an absent magnitude. -/
theorem normalizeFeature_no_throw_witness :
    wellFormedRaw (JsObj.obj
        { id := some "nogeo", properties := JsObj.undef, geometry := JsObj.undef })
      = true ∧
    normalizeFeatureRaw (JsObj.obj
        { id := some "nogeo", properties := JsObj.undef, geometry := JsObj.undef })
      = Except.ok (normalizeFeature (flattenRaw (JsObj.obj
          { id := some "nogeo", properties := JsObj.undef, geometry := JsObj.undef }))) ∧
    noGeoFeature.coordinates = none ∧
    (normalizeFeature noGeoFeature).coords = { lat := some 0, lon := some 0 } ∧
    (normalizeFeature noGeoFeature).depth = some 0 ∧
    (normalizeFeature noGeoFeature).magnitude = none := by
  have h := normalizeFeature_no_throw
    (JsObj.obj { id := some "nogeo", properties := JsObj.undef, geometry := JsObj.undef })
    [] noGeoFeature rfl
  exact ⟨rfl, h.1, rfl, (h.2.2.1 rfl).1, (h.2.2.1 rfl).2, h.2.2.2 rfl⟩

/-- C9: `getEarthquakes` always resolves to a result object and never rejects
(it is a total function of its inputs); when the underlying fetch threw, the
result is `{ok: false}` with `error = 'aborted'` for an `AbortError` (raised by
cancellation or the fetch timeout) and `error = message` otherwise — and in
every other case the result is `{ok: true}` with no error. -/
theorem getEarthquakes_never_rejects (range : String) (minMagnitude : ℚ)
    (maxResults : Option ℕ) (now : ℚ) (mem : MemStore) (dur : DurStore)
    (outcome : FetchOutcome) :
    ((getEarthquakes range minMagnitude maxResults now mem dur outcome).1.ok = true ∧
     (getEarthquakes range minMagnitude maxResults now mem dur outcome).1.error = none) ∨
    ((getEarthquakes range minMagnitude maxResults now mem dur outcome).1.ok = false ∧
     ∃ e, outcome = FetchOutcome.failure e ∧
       (getEarthquakes range minMagnitude maxResults now mem dur outcome).1.error
         = some (if e.name = "AbortError" then "aborted" else errText e)) := by
  unfold getEarthquakes
  rcases hm : storeGet mem (cacheKey range minMagnitude) with _ | c
  · simp only [hm]
    exact durStage_classify _ minMagnitude maxResults now mem dur outcome
  · simp only [hm]
    by_cases hts : now - c.ts < CACHE_TTL
    · rw [if_pos hts]; exact Or.inl ⟨rfl, rfl⟩
    · rw [if_neg hts]
      exact durStage_classify _ minMagnitude maxResults now mem dur outcome

/-- C6 counterexample: a read that finds an **in-process** entry whose age
(600000 ms) exceeds the tier's TTL (300000 ms) treats it as absent (the call
falls through to the durable tier and the failing fetch, so `ok = false` and
`fromCache = false`) but does **not** delete the entry: the in-process map is
returned unchanged, still holding the expired entry. -/
theorem memCache_no_purge_cex :
    (600000 : ℚ) - 0 ≥ CACHE_TTL ∧
    (getEarthquakes "24h" 0 (some 500) 600000
        [(demoKey, { ts := 0, features := [normalizeFeature f62] })] []
        (FetchOutcome.failure
          { name := "TypeError", message := "Failed to fetch",
            str := "TypeError: Failed to fetch" })).1.ok = false ∧
    (getEarthquakes "24h" 0 (some 500) 600000
        [(demoKey, { ts := 0, features := [normalizeFeature f62] })] []
        (FetchOutcome.failure
          { name := "TypeError", message := "Failed to fetch",
            str := "TypeError: Failed to fetch" })).1.fromCache = false ∧
    (getEarthquakes "24h" 0 (some 500) 600000
        [(demoKey, { ts := 0, features := [normalizeFeature f62] })] []
        (FetchOutcome.failure
          { name := "TypeError", message := "Failed to fetch",
            str := "TypeError: Failed to fetch" })).2.1
      = [(demoKey, { ts := 0, features := [normalizeFeature f62] })] := by
  refine ⟨by norm_num [CACHE_TTL], ?_, ?_, ?_⟩ <;>
    · simp only [getEarthquakes, durStage, fetchStage, demoKey, storeGet, List.find?,
        getCache]
      norm_num [CACHE_TTL]

/-- C6 (amended): expiry is lazily evaluated at read time on **the durable
tier**: a durable read that finds an entry older than its `ttl` reports it
absent and deletes it on that same read.  The **in-process** tier treats an
entry aged at least `CACHE_TTL` as absent on read but does not delete it —
with a durable miss and a failing fetch, the map still holds the stale
entry after the call. -/
theorem expired_read_purge (dur dur2 : DurStore) (key : String) (p : CachePayload)
    (now : ℚ) (range : String) (minMag : ℚ) (maxR : Option ℕ) (mem : MemStore)
    (c : MemEntry) (e : JsError) :
    (storeGet dur key = some p → now - p.ts > p.ttl →
      getCache dur key now = (none, storeRemove dur key) ∧
      storeGet (storeRemove dur key) key = none) ∧
    (storeGet mem (cacheKey range minMag) = some c → CACHE_TTL ≤ now - c.ts →
      storeGet dur2 (cacheKey range minMag) = none →
      (getEarthquakes range minMag maxR now mem dur2 (FetchOutcome.failure e)).1.ok
        = false ∧
      (getEarthquakes range minMag maxR now mem dur2 (FetchOutcome.failure e)).2.1
        = mem) := by
  constructor
  · intro h1 h2
    exact ⟨by simp [getCache, h1, h2], storeGet_storeRemove_self dur key⟩
  · intro h1 h2 h3
    have hnot : ¬ (now - c.ts < CACHE_TTL) := not_lt.mpr h2
    constructor <;>
      simp [getEarthquakes, h1, hnot, durStage, getCache_of_miss dur2 _ now h3,
        fetchStage]

/-- C6 witness: a durable entry stored at time 0 with `ttl = 300000`, read at
time 600000, is reported absent and purged; an in-process entry of the same age
survives the read that skips it. -/
theorem expired_read_purge_witness :
    (storeGet ([("k", { ts := 0, ttl := 300000, value := [] })] : DurStore) "k"
        = some ({ ts := 0, ttl := 300000, value := [] } : CachePayload) ∧
      (600000 : ℚ) - 0 > 300000 ∧
      getCache ([("k", { ts := 0, ttl := 300000, value := [] })] : DurStore) "k" 600000
        = (none,
           storeRemove ([("k", { ts := 0, ttl := 300000, value := [] })] : DurStore) "k")) ∧
    (storeGet ([(demoKey, { ts := 0, features := [] })] : MemStore) (cacheKey "24h" 0)
        = some ({ ts := 0, features := [] } : MemEntry) ∧
      CACHE_TTL ≤ (600000 : ℚ) - 0 ∧
      (getEarthquakes "24h" 0 (some 500) 600000
          ([(demoKey, { ts := 0, features := [] })] : MemStore) []
          (FetchOutcome.failure { name := "TypeError", message := "x", str := "x" })).2.1
        = ([(demoKey, { ts := 0, features := [] })] : MemStore)) := by
  have hd : storeGet ([("k", { ts := 0, ttl := 300000, value := [] })] : DurStore) "k"
      = some ({ ts := 0, ttl := 300000, value := [] } : CachePayload) := by
    simp [storeGet, List.find?]
  have hm : storeGet ([(demoKey, { ts := 0, features := [] })] : MemStore) (cacheKey "24h" 0)
      = some ({ ts := 0, features := [] } : MemEntry) := by
    simp [storeGet, List.find?, demoKey]
  have hd2 : storeGet ([] : DurStore) (cacheKey "24h" 0) = none := by
    simp [storeGet, List.find?]
  refine ⟨⟨hd, by norm_num, ?_⟩, ⟨hm, by norm_num [CACHE_TTL], ?_⟩⟩
  · exact ((expired_read_purge [("k", { ts := 0, ttl := 300000, value := [] })] []
      "k" { ts := 0, ttl := 300000, value := [] } 600000 "24h" 0 (some 500) []
      { ts := 0, features := [] }
      { name := "TypeError", message := "x", str := "x" }).1 hd (by norm_num)).1
  · exact ((expired_read_purge [("k", { ts := 0, ttl := 300000, value := [] })] []
      "k" { ts := 0, ttl := 300000, value := [] } 600000 "24h" 0 (some 500)
      [(demoKey, { ts := 0, features := [] })]
      { ts := 0, features := [] }
      { name := "TypeError", message := "x", str := "x" }).2 hm
      (by norm_num [CACHE_TTL]) hd2).2

/-- C10: when the durable tier hits (the in-process tier having missed or
expired), the in-process map is warmed with the **fresh** call-time timestamp
`now` — not the durable entry's `storedAt` — so for any later time within
`CACHE_TTL` of the warming, a second call is an in-process hit returning the
same payload, whatever the durable store then contains. -/
theorem durable_hit_warms_fresh (range : String) (minMag : ℚ) (maxR : Option ℕ)
    (now : ℚ) (mem : MemStore) (dur : DurStore) (outcome : FetchOutcome)
    (p : CachePayload)
    (hmem : memMiss mem (cacheKey range minMag) now)
    (hdur : storeGet dur (cacheKey range minMag) = some p)
    (hvalid : ¬ (now - p.ts > p.ttl)) :
    (getEarthquakes range minMag maxR now mem dur outcome).1
      = okResult true (cap maxR p.value) ∧
    storeGet (getEarthquakes range minMag maxR now mem dur outcome).2.1
        (cacheKey range minMag) = some { ts := now, features := p.value } ∧
    ∀ (t1 : ℚ) (dur2 : DurStore) (outcome2 : FetchOutcome), t1 - now < CACHE_TTL →
      (getEarthquakes range minMag maxR t1
          (getEarthquakes range minMag maxR now mem dur outcome).2.1 dur2 outcome2).1
        = okResult true (cap maxR p.value) := by
  have hgc : getCache dur (cacheKey range minMag) now = (some p.value, dur) := by
    simp [getCache, hdur, hvalid]
  have hds : durStage (cacheKey range minMag) minMag maxR now mem dur outcome
      = (okResult true (cap maxR p.value),
         storeSet (cacheKey range minMag) { ts := now, features := p.value } mem, dur) := by
    unfold durStage
    rw [hgc]
  have hstate : getEarthquakes range minMag maxR now mem dur outcome
      = (okResult true (cap maxR p.value),
         storeSet (cacheKey range minMag) { ts := now, features := p.value } mem, dur) := by
    unfold getEarthquakes
    rcases hsg : storeGet mem (cacheKey range minMag) with _ | c
    · simpa [hsg] using hds
    · have : ¬ (now - c.ts < CACHE_TTL) := not_lt.mpr (hmem c hsg)
      simpa [hsg, this] using hds
  refine ⟨by rw [hstate], ?_, ?_⟩
  · rw [hstate]
    exact storeGet_storeSet_self _ _ mem
  · intro t1 dur2 outcome2 ht
    rw [hstate]
    show (getEarthquakes range minMag maxR t1
        (storeSet (cacheKey range minMag) { ts := now, features := p.value } mem)
        dur2 outcome2).1
      = okResult true (cap maxR p.value)
    have hm2 := storeGet_storeSet_self (cacheKey range minMag)
      ({ ts := now, features := p.value } : MemEntry) mem
    unfold getEarthquakes
    simp only [hm2, ht, if_true, if_pos]

/-- C10 witness: the durable entry was stored at time 0 with `ttl = 300000` and
is read at time 300000 — the last moment of its validity; the warmed in-process
entry still hits at time 599999, with an empty durable store. -/
theorem durable_hit_warms_fresh_witness :
    ((getEarthquakes "24h" 0 none 300000 []
        [(demoKey, { ts := 0, ttl := 300000, value := [normalizeFeature f62] })]
        (FetchOutcome.failure { name := "AbortError", message := "aborted", str := "a" })).1
      = okResult true [normalizeFeature f62]) ∧
    ((getEarthquakes "24h" 0 none 599999
        (getEarthquakes "24h" 0 none 300000 []
          [(demoKey, { ts := 0, ttl := 300000, value := [normalizeFeature f62] })]
          (FetchOutcome.failure { name := "AbortError", message := "aborted", str := "a" })).2.1
        [] (FetchOutcome.failure { name := "AbortError", message := "aborted", str := "a" })).1
      = okResult true [normalizeFeature f62]) := by
  have h := durable_hit_warms_fresh "24h" 0 none 300000 []
    [(demoKey, { ts := 0, ttl := 300000, value := [normalizeFeature f62] })]
    (FetchOutcome.failure { name := "AbortError", message := "aborted", str := "a" })
    { ts := 0, ttl := 300000, value := [normalizeFeature f62] }
    (by intro c hc; simp [storeGet] at hc)
    (by simp [storeGet, List.find?, demoKey])
    (by norm_num)
  exact ⟨h.1, h.2.2 599999 []
    (FetchOutcome.failure { name := "AbortError", message := "aborted", str := "a" })
    (by norm_num [CACHE_TTL])⟩

/-- The `visibleData` comparator is total. -/
theorem priorityCmp_total (a b : MapEvent) :
    priorityCmp a b ≤ 0 ∨ priorityCmp b a ≤ 0 := by
  unfold priorityCmp
  by_cases h : |a.magOr0 - b.magOr0| > 1/2
  · have h2 : |b.magOr0 - a.magOr0| > 1/2 := by rwa [abs_sub_comm]
    rw [if_pos h, if_pos h2]
    rcases le_total a.magOr0 b.magOr0 with hle | hle
    · right; linarith
    · left; linarith
  · have h2 : ¬ |b.magOr0 - a.magOr0| > 1/2 := by rwa [abs_sub_comm]
    rw [if_neg h, if_neg h2]
    rcases le_total a.timeOr0 b.timeOr0 with hle | hle
    · right; linarith
    · left; linarith

/-- Any prefix of a `priorityCmp`-sorted list has every consecutive pair in
the claimed order. -/
theorem chain_claimedOrder_sorted (l : List MapEvent) (n : ℕ) :
    List.Chain' claimedOrder ((jsSortBy priorityCmp l).take n) := by
  have hch := jsSortBy_chain' priorityCmp priorityCmp_total l
  have hch2 : List.Chain' claimedOrder (jsSortBy priorityCmp l) := by
    refine List.Chain'.imp ?_ hch
    intro a b h
    constructor
    · intro habs
      rw [priorityCmp, if_pos habs] at h
      rcases lt_abs.mp habs with h1 | h2
      · linarith
      · linarith
    · intro hle
      rw [priorityCmp, if_neg (not_lt.mpr hle)] at h
      linarith
  exact hch2.take n

/-- C5 counterexample: with magnitudes [4.0, 4.4, 4.8] and times [3, 2, 1],
`visibleData` returns the input order — but the first and the last element
have magnitudes 0.8 apart with the smaller magnitude first, so the output is
**not** ordered by magnitude descending for pairs more than 0.5 apart: the
comparator is not transitive, and the sorted output violates the claimed
global order. -/
theorem visibleData_order_cex :
    visibleData [evA, evB, evC] none false "balanced" = [evA, evB, evC] ∧
    |evA.magOr0 - evC.magOr0| > 1/2 ∧ evA.magOr0 < evC.magOr0 := by
  refine ⟨?_, ?_, ?_⟩
  · simp only [visibleData, jsSortBy, jsInsert, priorityCmp, getSmartRenderingLimit,
      MapEvent.magOr0, MapEvent.timeOr0, evA, evB, evC]
    norm_num [rat_abs_ite]
    simp
    norm_num [rat_abs_ite, jsSortBy, jsInsert, priorityCmp, MapEvent.magOr0,
      MapEvent.timeOr0, evA, evB, evC]
  · norm_num [MapEvent.magOr0, evA, evC, rat_abs_ite]
  · norm_num [MapEvent.magOr0, evA, evC]

/-- C5 (amended): every pair of **consecutive** events in the ranked sequence
satisfies the comparator — magnitude strictly descending when the two
magnitudes differ by more than 0.5, otherwise recency (larger time first).
The stronger all-pairs ordering fails because the comparator is not
transitive. -/
theorem visibleData_consecutive_order (allData : List MapEvent)
    (bounds : Option Bounds) (gf : Bool) (mode : String) :
    List.Chain' claimedOrder (visibleData allData bounds gf mode) := by
  unfold visibleData
  by_cases h : allData.isEmpty
  · simp [h]
  · simp only [h, Bool.false_eq_true, if_false]
    exact chain_claimedOrder_sorted _ _

/-- C8: the clustering distance threshold is exactly 40 above zoom 10, 60 above
zoom 7, 80 above zoom 4, and 120 otherwise; two events 0.0005° apart in both
coordinates form a single 2-member cluster at zoom 2 and two singleton clusters
at zoom 12 (the planar degree distance scaled by 111000 m/° is ≈ 78.5 m,
between the 40 and 120 thresholds). -/
theorem clusterDistance_tiers_scenario (zoom : ℤ) :
    (zoom > 10 → clusterDistance zoom = 40) ∧
    (zoom ≤ 10 → zoom > 7 → clusterDistance zoom = 60) ∧
    (zoom ≤ 7 → zoom > 4 → clusterDistance zoom = 80) ∧
    (zoom ≤ 4 → clusterDistance zoom = 120) ∧
    (createClusters [evE1, evE2] 2).map Cluster.points = [[evE1, evE2]] ∧
    (createClusters [evE1, evE2] 12).map Cluster.points = [[evE1], [evE2]] := by
  refine ⟨?_, ?_, ?_, ?_, ?_, ?_⟩
  · intro h; simp [clusterDistance, h]
  · intro h10 h7
    have hn : ¬ zoom > 10 := by omega
    simp [clusterDistance, hn, h7]
  · intro h7 h4
    have hn10 : ¬ zoom > 10 := by omega
    have hn7 : ¬ zoom > 7 := by omega
    simp [clusterDistance, hn10, hn7, h4]
  · intro h4
    have hn10 : ¬ zoom > 10 := by omega
    have hn7 : ¬ zoom > 7 := by omega
    have hn4 : ¬ zoom > 4 := by omega
    simp [clusterDistance, hn10, hn7, hn4]
  · norm_num [createClusters, clusterLoop, innerScan, mkCluster, nearB,
      clusterDistance, List.enum, List.enumFrom, evE1, evE2]
  · norm_num [createClusters, clusterLoop, innerScan, mkCluster, nearB,
      clusterDistance, List.enum, List.enumFrom, evE1, evE2]

/-- C8 witness: the tier equalities at zooms 12, 8, 5 and 2. -/
theorem clusterDistance_tiers_scenario_witness :
    ((12 : ℤ) > 10 ∧ clusterDistance 12 = 40) ∧
    ((8 : ℤ) ≤ 10 ∧ (8 : ℤ) > 7 ∧ clusterDistance 8 = 60) ∧
    ((5 : ℤ) ≤ 7 ∧ (5 : ℤ) > 4 ∧ clusterDistance 5 = 80) ∧
    ((2 : ℤ) ≤ 4 ∧ clusterDistance 2 = 120) :=
  ⟨⟨by decide, (clusterDistance_tiers_scenario 12).1 (by decide)⟩,
   ⟨by decide, by decide, (clusterDistance_tiers_scenario 8).2.1 (by decide) (by decide)⟩,
   ⟨by decide, by decide, (clusterDistance_tiers_scenario 5).2.2.1 (by decide) (by decide)⟩,
   ⟨by decide, (clusterDistance_tiers_scenario 2).2.2.2.1 (by decide)⟩⟩

/-- `innerScan` claims exactly the points passing `claimP`: the claimed points
in scan order, and the processed set grown by their indices (latest first) —
provided the indices in the scanned list are distinct. -/
theorem innerScan_eq (pt : MapEvent) (d : ℚ) (i : ℕ) :
    ∀ (L : List (ℕ × MapEvent)) (pr : List ℕ), (L.map Prod.fst).Nodup →
    innerScan pt d i L pr
      = ((L.filter (claimP pt d i pr)).map Prod.snd,
         ((L.filter (claimP pt d i pr)).map Prod.fst).reverse ++ pr) := by
  intro L
  induction L with
  | nil => intro pr _; simp [innerScan]
  | cons a rest ih =>
    intro pr hnd
    obtain ⟨j, q⟩ := a
    rw [List.map_cons, List.nodup_cons] at hnd
    obtain ⟨hj, hnd'⟩ := hnd
    by_cases hskip : j = i ∨ j ∈ pr
    · have hcp : ¬ (claimP pt d i pr (j, q) = true) := by simp [claimP, hskip]
      rw [List.filter_cons_of_neg hcp]
      simp only [innerScan, if_pos hskip]
      exact ih pr hnd'
    · by_cases hnear : nearB pt q d
      · have hcp : claimP pt d i pr (j, q) = true := by
          simp [claimP, hskip, hnear]
        rw [List.filter_cons_of_pos hcp]
        simp only [innerScan, if_neg hskip, hnear, if_pos]
        have hstab : rest.filter (claimP pt d i (j :: pr))
            = rest.filter (claimP pt d i pr) := by
          apply List.filter_congr
          intro x hx
          have hxj : x.1 ≠ j := by
            intro he
            apply hj
            show j ∈ List.map Prod.fst rest
            rw [← he]
            exact List.mem_map_of_mem Prod.fst hx
          simp [claimP, List.mem_cons, hxj]
        rw [ih (j :: pr) hnd', hstab]
        simp [List.append_assoc]
      · have hcp : ¬ (claimP pt d i pr (j, q) = true) := by
          simp [claimP, hnear]
        rw [List.filter_cons_of_neg hcp]
        have hb : nearB pt q d = false := by simpa using hnear
        simp only [innerScan, if_neg hskip, hb, Bool.false_eq_true, if_false]
        exact ih pr hnd'

/-- Disjoint boolean predicates split a filter into an append, up to
permutation. -/
theorem filter_or_perm (l : List α) (p q : α → Bool)
    (h : ∀ x ∈ l, ¬(p x = true ∧ q x = true)) :
    List.Perm (l.filter fun x => p x || q x) (l.filter p ++ l.filter q) := by
  induction l with
  | nil => simp
  | cons a l ih =>
    have ha := h a (List.mem_cons_self a l)
    have hl : ∀ x ∈ l, ¬(p x = true ∧ q x = true) :=
      fun x hx => h x (List.mem_cons_of_mem a hx)
    by_cases hp : p a
    · have hq : q a = false := by
        cases hqv : q a
        · rfl
        · exact absurd ⟨hp, hqv⟩ ha
      simp only [List.filter_cons, hp, Bool.true_or, if_pos, hq, Bool.false_eq_true,
        if_false]
      simpa using (ih hl).cons a
    · by_cases hq : q a
      · have hp' : p a = false := by simpa using hp
        simp only [List.filter_cons, hp', hq, Bool.false_or, if_pos, if_neg]
        simpa using ((ih hl).cons a).trans List.perm_middle.symm
      · have hp' : p a = false := by simpa using hp
        have hq' : q a = false := by simpa using hq
        simp only [List.filter_cons, hp', hq', Bool.false_or, Bool.false_eq_true, if_false]
        exact ih hl

/-- With distinct keys, filtering down to one key yields exactly its binding. -/
theorem filter_key_eq (all : List (ℕ × MapEvent))
    (hnd : (all.map Prod.fst).Nodup) (i : ℕ) (p : MapEvent)
    (hmem : (i, p) ∈ all) :
    all.filter (fun jq => decide (jq.1 = i)) = [(i, p)] := by
  induction all with
  | nil => cases hmem
  | cons a rest ih =>
    obtain ⟨j, q⟩ := a
    rw [List.map_cons, List.nodup_cons] at hnd
    obtain ⟨hj, hnd'⟩ := hnd
    rcases List.mem_cons.mp hmem with heq | hmem2
    · injection heq with h1 h2
      subst h1
      subst h2
      rw [List.filter_cons_of_pos (by simp)]
      have hrest : rest.filter (fun jq => decide (jq.1 = i)) = [] := by
        apply List.filter_eq_nil_iff.mpr
        intro x hx
        simp only [decide_eq_true_eq]
        intro he
        apply hj
        show i ∈ List.map Prod.fst rest
        rw [← he]
        exact List.mem_map_of_mem Prod.fst hx
      rw [hrest]
    · have hji : j ≠ i := by
        intro he
        apply hj
        show j ∈ List.map Prod.fst rest
        rw [he]
        exact List.mem_map_of_mem Prod.fst hmem2
      rw [List.filter_cons_of_neg (by simp [hji])]
      exact ih hnd' hmem2

/-- With distinct keys, filtering by membership of the key in a filtered
sublist's keys recovers exactly that filtered sublist. -/
theorem filter_key_mem_of_filter (all : List (ℕ × MapEvent))
    (P : ℕ × MapEvent → Bool) (hnd : (all.map Prod.fst).Nodup) :
    all.filter (fun jq => decide (jq.1 ∈ (all.filter P).map Prod.fst))
      = all.filter P := by
  apply List.filter_congr
  intro x hx
  cases hP : P x
  · simp only [decide_eq_false_iff_not]
    intro hmemf
    obtain ⟨y, hy, hyx⟩ := List.exists_of_mem_map hmemf
    have hyall := List.mem_of_mem_filter hy
    have hPy := List.of_mem_filter hy
    have hxy : y = x := List.inj_on_of_nodup_map hnd hyall hx hyx
    rw [hxy] at hPy
    rw [hP] at hPy
    cases hPy
  · simp only [decide_eq_true_eq]
    exact List.mem_map_of_mem Prod.fst (List.mem_filter.mpr ⟨hx, hP⟩)

/-- Both branches of `mkCluster` carry `seed :: extra` as the member list. -/
theorem mkCluster_points (p : MapEvent) (extra : List MapEvent) :
    (mkCluster p extra).points = p :: extra := by
  simp only [mkCluster]
  split <;> rfl

/-- Every cluster produced by `clusterLoop` is `mkCluster` of a seed and its
claimed points. -/
theorem clusterLoop_members (all : List (ℕ × MapEvent)) (d : ℚ) :
    ∀ (todo : List (ℕ × MapEvent)) (pr : List ℕ) (c : Cluster),
      c ∈ clusterLoop all d todo pr → ∃ p extra, c = mkCluster p extra := by
  intro todo
  induction todo with
  | nil => intro pr c hc; simp [clusterLoop] at hc
  | cons a rest ih =>
    intro pr c hc
    obtain ⟨i, p⟩ := a
    by_cases hi : i ∈ pr
    · rw [clusterLoop, if_pos hi] at hc
      exact ih pr c hc
    · rw [clusterLoop, if_neg hi] at hc
      rcases List.mem_cons.mp hc with heq | hc2
      · exact ⟨p, (innerScan p d i all pr).1, heq⟩
      · exact ih _ c hc2

/-- The heart of the partition argument: running the outer loop over `todo`
with processed set `pr` produces clusters whose members, taken together, are a
permutation of the entries of `all` at a set `S` of fresh indices, and `S`
covers every unprocessed index of `todo`. -/
theorem clusterLoop_cover (all : List (ℕ × MapEvent)) (d : ℚ)
    (hnd : (all.map Prod.fst).Nodup) :
    ∀ (todo : List (ℕ × MapEvent)) (pr : List ℕ), (∀ x ∈ todo, x ∈ all) →
    ∃ S : List ℕ,
      (∀ j ∈ S, j ∉ pr) ∧
      (∀ x ∈ todo, x.1 ∈ pr ∨ x.1 ∈ S) ∧
      List.Perm (((clusterLoop all d todo pr).map Cluster.points).flatten)
        ((all.filter fun jq => decide (jq.1 ∈ S)).map Prod.snd) := by
  intro todo
  induction todo with
  | nil =>
    intro pr _
    refine ⟨[], by simp, by simp, ?_⟩
    simp [clusterLoop]
  | cons a rest ih =>
    intro pr htodo
    obtain ⟨i, p⟩ := a
    have hmemall : (i, p) ∈ all := htodo _ (List.mem_cons_self _ _)
    have hrest : ∀ x ∈ rest, x ∈ all := fun x hx => htodo x (List.mem_cons_of_mem _ hx)
    by_cases hi : i ∈ pr
    · obtain ⟨S, hS1, hS2, hS3⟩ := ih pr hrest
      refine ⟨S, hS1, ?_, ?_⟩
      · intro x hx
        rcases List.mem_cons.mp hx with heq | hx2
        · left
          rw [heq]
          exact hi
        · exact hS2 x hx2
      · rw [clusterLoop, if_pos hi]
        exact hS3
    · have hscan := innerScan_eq p d i all pr hnd
      set pairs := all.filter (claimP p d i pr) with hpairs
      have hpair_props : ∀ y ∈ pairs, y.1 ≠ i ∧ y.1 ∉ pr := by
        intro y hy
        have hcl := List.of_mem_filter hy
        simp only [claimP, Bool.and_eq_true, Bool.not_eq_true',
          decide_eq_false_iff_not] at hcl
        exact ⟨fun h => hcl.1 (Or.inl h), fun h => hcl.1 (Or.inr h)⟩
      have hi_not_pairs : i ∉ pairs.map Prod.fst := by
        intro hmem
        obtain ⟨y, hy, hyi⟩ := List.exists_of_mem_map hmem
        exact (hpair_props y hy).1 hyi
      obtain ⟨S', hS'1, hS'2, hS'3⟩ :=
        ih (i :: ((pairs.map Prod.fst).reverse ++ pr)) hrest
      have hS'i : i ∉ S' := fun h => (hS'1 i h) (List.mem_cons_self _ _)
      have hS'pairs : ∀ j ∈ pairs.map Prod.fst, j ∉ S' := by
        intro j hj hjS
        exact hS'1 j hjS
          (List.mem_cons_of_mem _ (List.mem_append_left _ (List.mem_reverse.mpr hj)))
      have hS'pr : ∀ j ∈ S', j ∉ pr := by
        intro j hj hjpr
        exact hS'1 j hj (List.mem_cons_of_mem _ (List.mem_append_right _ hjpr))
      refine ⟨i :: (pairs.map Prod.fst ++ S'), ?_, ?_, ?_⟩
      · intro j hj
        rcases List.mem_cons.mp hj with rfl | hj2
        · exact hi
        rcases List.mem_append.mp hj2 with hjp | hjS
        · intro hpr
          obtain ⟨y, hy, rfl⟩ := List.exists_of_mem_map hjp
          exact (hpair_props y hy).2 hpr
        · exact hS'pr j hjS
      · intro x hx
        rcases List.mem_cons.mp hx with heq | hx2
        · right
          rw [heq]
          exact List.mem_cons_self _ _
        · rcases hS'2 x hx2 with hxpr2 | hxS'
          · rcases List.mem_cons.mp hxpr2 with hxi | hx3
            · right
              rw [hxi]
              exact List.mem_cons_self _ _
            · rcases List.mem_append.mp hx3 with hxrev | hxpr
              · right
                exact List.mem_cons_of_mem _
                  (List.mem_append_left _ (List.mem_reverse.mp hxrev))
              · left
                exact hxpr
          · right
            exact List.mem_cons_of_mem _ (List.mem_append_right _ hxS')
      · have h1 : (innerScan p d i all pr).1 = pairs.map Prod.snd := by rw [hscan]
        have h2 : (innerScan p d i all pr).2 = (pairs.map Prod.fst).reverse ++ pr := by
          rw [hscan]
        have hcongr : all.filter (fun jq => decide (jq.1 ∈ i :: (pairs.map Prod.fst ++ S')))
            = all.filter (fun jq =>
                decide (jq.1 = i)
                  || (decide (jq.1 ∈ pairs.map Prod.fst) || decide (jq.1 ∈ S'))) := by
          apply List.filter_congr
          intro x _
          by_cases hxi : x.1 = i <;> by_cases hxp : x.1 ∈ pairs.map Prod.fst <;>
            by_cases hxs : x.1 ∈ S' <;>
              simp [hxi, hxp, hxs, List.mem_append]
        have hd1 : ∀ x ∈ all,
            ¬((fun jq => decide (jq.1 = i)) x = true ∧
              (fun jq => decide (jq.1 ∈ pairs.map Prod.fst) || decide (jq.1 ∈ S')) x
                = true) := by
          intro x _ hpq
          obtain ⟨hxi, hxrest⟩ := hpq
          simp only [decide_eq_true_eq, Bool.or_eq_true] at hxi hxrest
          rcases hxrest with hmem | hmem
          · exact hi_not_pairs (hxi ▸ hmem)
          · exact hS'i (hxi ▸ hmem)
        have hp1 := filter_or_perm all (fun jq => decide (jq.1 = i))
          (fun jq => decide (jq.1 ∈ pairs.map Prod.fst) || decide (jq.1 ∈ S')) hd1
        have hd2 : ∀ x ∈ all,
            ¬((fun jq => decide (jq.1 ∈ pairs.map Prod.fst)) x = true ∧
              (fun jq => decide (jq.1 ∈ S')) x = true) := by
          intro x _ hpq
          obtain ⟨hx1, hx2⟩ := hpq
          simp only [decide_eq_true_eq] at hx1 hx2
          exact hS'pairs _ hx1 hx2
        have hp2 := filter_or_perm all (fun jq => decide (jq.1 ∈ pairs.map Prod.fst))
          (fun jq => decide (jq.1 ∈ S')) hd2
        have hkey := filter_key_eq all hnd i p hmemall
        have hpairs_eq := filter_key_mem_of_filter all (claimP p d i pr) hnd
        have hRHS : List.Perm
            ((all.filter fun jq =>
                decide (jq.1 ∈ i :: (pairs.map Prod.fst ++ S'))).map Prod.snd)
            (p :: (pairs.map Prod.snd
              ++ (all.filter fun jq => decide (jq.1 ∈ S')).map Prod.snd)) := by
          rw [hcongr]
          refine (hp1.map Prod.snd).trans ?_
          rw [List.map_append, hkey]
          simp only [List.map_cons, List.map_nil, List.singleton_append]
          refine List.Perm.cons p ?_
          refine (hp2.map Prod.snd).trans ?_
          rw [List.map_append, hpairs_eq]
        refine List.Perm.trans ?_ hRHS.symm
        simp only [clusterLoop, if_neg hi, h1, h2, mkCluster_points, List.map_cons,
          List.flatten_cons, List.cons_append]
        exact List.Perm.cons p (List.Perm.append_left _ hS'3)

/-- C4: clustering is deterministic — equal ranked inputs and zooms give equal
cluster lists — and is a partition of its input: the members of all clusters,
taken together, are a permutation of the input list (every event in exactly one
cluster, none duplicated or omitted), and every cluster has at least one
member. -/
theorem createClusters_partition (pts pts2 : List MapEvent) (zoom zoom2 : ℤ) :
    (pts = pts2 → zoom = zoom2 → createClusters pts zoom = createClusters pts2 zoom2) ∧
    List.Perm (((createClusters pts zoom).map Cluster.points).flatten) pts ∧
    ∀ c ∈ createClusters pts zoom, c.points ≠ [] := by
  refine ⟨fun h1 h2 => by rw [h1, h2], ?_, ?_⟩
  · unfold createClusters
    have hnd : (pts.enum.map Prod.fst).Nodup := List.nodup_enum_map_fst pts
    obtain ⟨S, _hS1, hcov, hperm⟩ :=
      clusterLoop_cover pts.enum (clusterDistance zoom) hnd pts.enum [] (fun x hx => hx)
    have hful : pts.enum.filter (fun jq => decide (jq.1 ∈ S)) = pts.enum := by
      apply List.filter_eq_self.mpr
      intro x hx
      rcases hcov x hx with h | h
      · exact absurd h (List.not_mem_nil _)
      · simpa using h
    rw [hful, List.enum_map_snd] at hperm
    exact hperm
  · intro c hc
    rw [createClusters] at hc
    obtain ⟨p, extra, rfl⟩ :=
      clusterLoop_members pts.enum (clusterDistance zoom) pts.enum [] c hc
    rw [mkCluster_points]
    simp

/-- C4 witness: determinism and the partition at a concrete input. -/
theorem createClusters_partition_witness :
    createClusters [evE1, evE2] 2 = createClusters [evE1, evE2] 2 ∧
    List.Perm (((createClusters [evE1, evE2] 2).map Cluster.points).flatten)
      [evE1, evE2] :=
  ⟨(createClusters_partition [evE1, evE2] [evE1, evE2] 2 2).1 rfl rfl,
   (createClusters_partition [evE1, evE2] [evE1, evE2] 2 2).2.1⟩

/-- C5 witness: the consecutive-pair ordering at a concrete input. -/
theorem visibleData_consecutive_order_witness :
    List.Chain' claimedOrder (visibleData [evA, evB, evC] none false "balanced") :=
  visibleData_consecutive_order [evA, evB, evC] none false "balanced"

end EV
